import Mathlib

/-!
# Verification of the local store / reconciliation core of dash-evo-tool

Shallow embedding of:
* `src/database/identities.rs` — the identity record store operations,
* `src/ui/key_info.rs` — private-key validation and storage,
* `src/ui/withdraws_status_screen.rs` — the withdrawal status aggregator and
  its filter/sort/paginate view.

SQLite rows are modelled as Lean structures, the `identity` table as a
`List IdentityRow` (row multiset with insertion order), and each Rust
function as a Lean function from the old store to the pair
(result, new store).  `rusqlite` I/O failures are environmental and never
produced by the model; the one logically generated error,
`QueryReturnedNoRows` (the spec's `NotFound`), is modelled exactly where the
source produces it.
-/

/-- Error type standing for `rusqlite::Error`.  `QueryReturnedNoRows` is the
variant the source produces itself (spec: `NotFound`); `StorageError` stands
for the environmental I/O variants, which the pure model never produces but
which the type distinguishes, as the source's error type does. -/
inductive DbError where
  | QueryReturnedNoRows : DbError
  | StorageError : String → DbError
deriving DecidableEq, Repr

/-- Message text used when a database error is formatted for the user. -/
def DbError.toMsg : DbError → String
  | .QueryReturnedNoRows => "Query returned no rows"
  | .StorageError m => m

/-- Model of `dash_sdk`'s `IdentityPublicKey` restricted to the accessors the
source uses: `id()` and `purpose()` (both rendered as numbers). -/
structure IdentityPublicKey where
  keyId : Nat
  purpose : Nat
deriving DecidableEq, Repr

/-- The part of a `QualifiedIdentity` that is carried inside the serialized
`data` blob.  Per spec §4.2 the blob carries the identity core (identifier,
type tag, key material) while `alias`, `wallet_index` and `top_ups` live in
separate relational columns and are reattached after decode. -/
structure IdentityCore where
  id : List Nat
  identity_type : String
  encrypted_private_keys : List ((Nat × Nat) × (IdentityPublicKey × List Nat))
deriving DecidableEq, Repr

/-- Modelled from the spec: the Qualified Identity Codec
(`QualifiedIdentity::to_bytes` / `from_bytes`) is not under `src/`; spec §6
treats the blob as an opaque black box characterised only by its decode
outcome.  A stored blob is therefore represented by that outcome:
`some core` for a well-formed payload, `none` for a malformed payload (the
spec's `CodecError` case, §7). -/
abbrev Blob := Option IdentityCore

/-- In-memory `QualifiedIdentity`: the serialized core plus the relational
bookkeeping fields (spec §4.2) and the caller-supplied wallet association. -/
structure QualifiedIdentity where
  core : IdentityCore
  «alias» : Option String
  wallet_index : Option Nat
  top_ups : List (Nat × Nat)
  associated_wallets : List (List Nat × Nat)
deriving DecidableEq, Repr

/-- `qualified_identity.to_bytes()`: encode the identity core as a blob. -/
def QualifiedIdentity.to_bytes (qi : QualifiedIdentity) : Blob :=
  some qi.core

/-- `QualifiedIdentity::from_bytes(&data)`: decode a stored blob.  In the
source this returns the identity directly and aborts (panics) on a malformed
payload; the model exposes the outcome so the abort can be reasoned about. -/
def from_bytes (b : Blob) : Option IdentityCore := b

/-- One row of the `identity` table (columns as in spec §6:
`id, data, is_local, alias, identity_type, network, is_in_creation, wallet,
wallet_index`). -/
structure IdentityRow where
  id : List Nat
  data : Option Blob
  is_local : Nat
  «alias» : Option String
  identity_type : String
  network : String
  is_in_creation : Nat
  wallet : Option (List Nat)
  wallet_index : Option Nat
deriving DecidableEq, Repr

/-- The `identity` table. -/
abbrev IdentityDb := List IdentityRow

/-- One row of the `top_up` table (`identity_id, top_up_index, amount`). -/
structure TopUpRow where
  identity_id : List Nat
  top_up_index : Nat
  amount : Nat
deriving DecidableEq, Repr

/-- The row update applied by `set_alias`'s
`UPDATE identity SET alias = ? WHERE id = ?` — note the `WHERE` matches on
`id` alone, with no `network` condition. -/
def setAliasRow (identifier : List Nat) (new_alias : Option String)
    (r : IdentityRow) : IdentityRow :=
  if r.id = identifier then { r with «alias» := new_alias } else r

/-- `Database::set_alias`: runs the `UPDATE`, then returns
`Err(QueryReturnedNoRows)` if it touched zero rows.  The returned pair is
(call result, table state after the call). -/
def set_alias (db : IdentityDb) (identifier : List Nat)
    (new_alias : Option String) : Except DbError Unit × IdentityDb :=
  let updated := db.map (setAliasRow identifier new_alias)
  let rows_updated := db.countP (fun r => decide (r.id = identifier))
  (if rows_updated = 0 then .error .QueryReturnedNoRows else .ok (), updated)

/-- The row update applied by `update_local_qualified_identity`'s
`UPDATE identity SET data = ?, alias = ?, identity_type = ?, network = ?,
is_local = 1 WHERE id = ?` — again matching on `id` alone and overwriting the
`network` column with the caller's current network. -/
def updateLocalRow (qi : QualifiedIdentity) (network : String)
    (r : IdentityRow) : IdentityRow :=
  if r.id = qi.core.id then
    { r with data := some qi.to_bytes, «alias» := qi.«alias»,
             identity_type := qi.core.identity_type, network := network,
             is_local := 1 }
  else r

/-- `Database::update_local_qualified_identity`: unconditional `UPDATE` with
no existence check; succeeds whether or not any row matched. -/
def update_local_qualified_identity (db : IdentityDb)
    (qi : QualifiedIdentity) (network : String) :
    Except DbError Unit × IdentityDb :=
  (.ok (), db.map (updateLocalRow qi network))

/-- `INSERT OR REPLACE` keyed by the table's primary key — per spec §3 the
composite key is `(identifier, network)` (the schema itself is not under
`src/`): any conflicting row is replaced by the new one. -/
def upsertRow (db : IdentityDb) (row : IdentityRow) : IdentityDb :=
  db.filter (fun r => !decide (r.id = row.id ∧ r.network = row.network)) ++ [row]

/-- `Database::insert_local_qualified_identity`: insert-or-replace with
`is_local = 1`, with or without wallet linkage columns. -/
def insert_local_qualified_identity (db : IdentityDb)
    (qi : QualifiedIdentity) (wallet_info : Option (List Nat × Nat))
    (network : String) : Except DbError Unit × IdentityDb :=
  match wallet_info with
  | some (w, wi) =>
      (.ok (), upsertRow db
        { id := qi.core.id, data := some qi.to_bytes, is_local := 1,
          «alias» := qi.«alias», identity_type := qi.core.identity_type,
          network := network, is_in_creation := 0, wallet := some w,
          wallet_index := some wi })
  | none =>
      (.ok (), upsertRow db
        { id := qi.core.id, data := some qi.to_bytes, is_local := 1,
          «alias» := qi.«alias», identity_type := qi.core.identity_type,
          network := network, is_in_creation := 0, wallet := none,
          wallet_index := none })

/-- `Database::insert_remote_identity_if_not_exists`: count the rows with the
given `(id, network)`; insert a remote stub row (`is_local = 0`) only when
the count is zero. -/
def insert_remote_identity_if_not_exists (db : IdentityDb)
    (identifier : List Nat) (qi : Option QualifiedIdentity)
    (network : String) : Except DbError Unit × IdentityDb :=
  let count := db.countP (fun r => decide (r.id = identifier ∧ r.network = network))
  if count = 0 then
    (.ok (), db ++
      [{ id := identifier, data := qi.map QualifiedIdentity.to_bytes,
         is_local := 0, «alias» := qi.bind (fun q => q.«alias»),
         identity_type := (qi.map (fun q => q.core.identity_type)).getD "",
         network := network, is_in_creation := 0, wallet := none,
         wallet_index := none }])
  else (.ok (), db)

/-- `BTreeMap::insert` on a map from `u32` keys, modelled as a key-sorted
association list: overwrite an equal key, otherwise keep ascending order. -/
def btreeInsert (k v : Nat) : List (Nat × Nat) → List (Nat × Nat)
  | [] => [(k, v)]
  | (k', v') :: rest =>
    if k < k' then (k, v) :: (k', v') :: rest
    else if k = k' then (k, v) :: rest
    else (k', v') :: btreeInsert k v rest

/-- The per-identity top-up lookup in `get_local_qualified_identities`:
`SELECT top_up_index, amount FROM top_up WHERE identity_id = ?`, inserted
row by row into a fresh `BTreeMap`. -/
def topUpsFor (topUps : List TopUpRow) (identityId : List Nat) :
    List (Nat × Nat) :=
  (topUps.filter (fun t => decide (t.identity_id = identityId))).foldl
    (fun m t => btreeInsert t.top_up_index t.amount m) []

/-- The row selection of `get_local_qualified_identities`:
`WHERE is_local = 1 AND network = ? AND data IS NOT NULL`. -/
def selectLocalRows (db : IdentityDb) (network : String) : IdentityDb :=
  db.filter (fun r =>
    decide (r.is_local = 1 ∧ r.network = network ∧ r.data ≠ none))

/-- The per-row body of `get_local_qualified_identities`'s `query_map`:
decode the blob, reattach `alias` and `wallet_index` from the row, attach
the caller-supplied wallet map, and attach the top-ups queried by the
*decoded* identity's id.  `none` models the process abort (panic) that
`QualifiedIdentity::from_bytes` performs on a malformed payload. -/
def rowToQualifiedIdentity (topUps : List TopUpRow)
    (wallets : List (List Nat × Nat)) (r : IdentityRow) :
    Option QualifiedIdentity :=
  match r.data with
  | none => none
  | some blob =>
    (from_bytes blob).map (fun core =>
      { core := core, «alias» := r.«alias», wallet_index := r.wallet_index,
        associated_wallets := wallets,
        top_ups := topUpsFor topUps core.id })

/-- The `collect` over the row iterator: build the result list row by row,
aborting as a whole if any row aborts. -/
def collectRows (f : IdentityRow → Option QualifiedIdentity) :
    IdentityDb → Option (List QualifiedIdentity)
  | [] => some []
  | r :: rs =>
    match f r, collectRows f rs with
    | some qi, some rest => some (qi :: rest)
    | _, _ => none

/-- `Database::get_local_qualified_identities`.  The outer `Option` models
process abort: `none` exactly when some selected row's payload fails to
decode (in the source, `from_bytes` panics there, so the listing never
returns).  SQL-level I/O errors are environmental and outside the model. -/
def get_local_qualified_identities (db : IdentityDb)
    (topUps : List TopUpRow) (wallets : List (List Nat × Nat))
    (network : String) : Option (List QualifiedIdentity) :=
  collectRows (rowToQualifiedIdentity topUps wallets) (selectLocalRows db network)

/-! ## Key info screen (`src/ui/key_info.rs`) -/

/-- One hex digit, as `hex::decode` accepts it (`0-9`, `a-f`, `A-F`). -/
def hexDigit (c : Char) : Option Nat :=
  if '0' ≤ c ∧ c ≤ '9' then some (c.toNat - '0'.toNat)
  else if 'a' ≤ c ∧ c ≤ 'f' then some (c.toNat - 'a'.toNat + 10)
  else if 'A' ≤ c ∧ c ≤ 'F' then some (c.toNat - 'A'.toNat + 10)
  else none

/-- Decode a character sequence two hex digits at a time; fail on an odd
length or a non-hex character. -/
def hexDecodeChars : List Char → Option (List Nat)
  | [] => some []
  | [_] => none
  | a :: b :: rest =>
    match hexDigit a, hexDigit b, hexDecodeChars rest with
    | some hi, some lo, some tail => some ((16 * hi + lo) :: tail)
    | _, _, _ => none

/-- `hex::decode` on the user's input string (the `hex` crate is an external
collaborator; its behaviour — bytes iff even length and all hex digits — is
standard). -/
def hex_decode (s : String) : Option (List Nat) :=
  hexDecodeChars s.data

/-- `BTreeMap::insert` into the identity's `encrypted_private_keys`, keyed by
the `(purpose, key id)` pair: keep the keys in ascending lexicographic order,
overwriting an equal key. -/
def keyMapInsert (k : Nat × Nat) (v : IdentityPublicKey × List Nat) :
    List ((Nat × Nat) × (IdentityPublicKey × List Nat)) →
    List ((Nat × Nat) × (IdentityPublicKey × List Nat))
  | [] => [(k, v)]
  | (k', v') :: rest =>
    if k.1 < k'.1 ∨ (k.1 = k'.1 ∧ k.2 < k'.2) then (k, v) :: (k', v') :: rest
    else if k = k' then (k, v) :: rest
    else (k', v') :: keyMapInsert k v rest

/-- The mutable fields of `KeyInfoScreen` that
`validate_and_store_private_key` reads or writes. -/
structure KeyInfoScreen where
  identity : QualifiedIdentity
  key : IdentityPublicKey
  private_key_bytes : Option (List Nat)
  private_key_input : String
  error_message : Option String
deriving DecidableEq, Repr

/-- The external private-key validator (spec §6):
`(public key descriptor, candidate private key bytes, network) →
Result<bool, ValidationError>`.  It is a collaborator, so the model takes it
as a parameter. -/
abbrev PrivateKeyValidator :=
  IdentityPublicKey → List Nat → String → Except String Bool

/-- `KeyInfoScreen::validate_and_store_private_key`, returning the screen
state and the identity store after the call.  Control flow mirrors the
source: hex-decode the input; on failure set an error message; otherwise run
the validator; on `Err` or `Ok(false)` set an error message; on `Ok(true)`
store the bytes, insert them into the identity's key map, and write the
identity through `insert_local_qualified_identity` (the `AppContext` wrapper
is not under `src/`; modelled from the spec as forwarding to the store's
insert with no wallet linkage, since none is supplied here). -/
def validate_and_store_private_key (validator : PrivateKeyValidator)
    (network : String) (st : KeyInfoScreen) (db : IdentityDb) :
    KeyInfoScreen × IdentityDb :=
  match hex_decode st.private_key_input with
  | some private_key_bytes =>
    match validator st.key private_key_bytes network with
    | .error err =>
        ({ st with
             error_message := some ("Issue verifying private key " ++ err) },
         db)
    | .ok true =>
        let keys' :=
          keyMapInsert (st.key.purpose, st.key.keyId)
            (st.key, private_key_bytes) st.identity.core.encrypted_private_keys
        let core' := { st.identity.core with encrypted_private_keys := keys' }
        let identity' : QualifiedIdentity := { st.identity with core := core' }
        let st' := { st with private_key_bytes := some private_key_bytes,
                             identity := identity' }
        match insert_local_qualified_identity db identity' none network with
        | (.ok _, db') => ({ st' with error_message := none }, db')
        | (.error e, db') =>
            ({ st' with error_message := some ("Issue saving: " ++ e.toMsg) }, db')
    | .ok false =>
        ({ st with
             error_message := some "Private key does not match the public key." },
         db)
  | none =>
      ({ st with
           error_message := some "Invalid hex string for private key." },
       db)

/-! ## Withdrawal status screen (`src/ui/withdraws_status_screen.rs`) -/

/-- `WithdrawalStatus` (queued, pooled, broadcasted, complete, expired). -/
inductive WithdrawalStatus where
  | QUEUED | POOLED | BROADCASTED | COMPLETE | EXPIRED
deriving DecidableEq, Repr

/-- The `as u8` cast used by the status sort key (declaration order). -/
def WithdrawalStatus.toU8 : WithdrawalStatus → Nat
  | .QUEUED => 0
  | .POOLED => 1
  | .BROADCASTED => 2
  | .COMPLETE => 3
  | .EXPIRED => 4

/-- A withdrawal record (spec §3): timestamp, status, amount in credits,
owner identifier bytes, destination address rendered as a byte/character
sequence (both compared lexicographically, spec §4.5). -/
structure WithdrawRecord where
  date_time : Nat
  status : WithdrawalStatus
  amount : Nat
  owner_id : List Nat
  address : List Nat
deriving DecidableEq, Repr

/-- The aggregated withdrawal snapshot (`WithdrawStatusData`), with the four
scalar aggregates the screen displays and the record sequence. -/
structure WithdrawStatusData where
  total_amount : Nat
  recent_withdrawal_amounts : Nat
  daily_withdrawal_limit : Nat
  total_credits_on_platform : Nat
  withdrawals : List WithdrawRecord
deriving DecidableEq, Repr

/-- Modelled from the spec: `WithdrawStatusPartialData`, the incoming
partial result (spec §4.4: it carries the scalar aggregate values, which
merge treats as authoritative, and a record sequence). -/
structure WithdrawStatusPartialData where
  total_amount : Nat
  recent_withdrawal_amounts : Nat
  daily_withdrawal_limit : Nat
  total_credits_on_platform : Nat
  withdrawals : List WithdrawRecord
deriving DecidableEq, Repr

/-- Modelled from the spec: `WithdrawStatusData::merge_with_data` is not
under `src/`.  Spec §4.4: scalar aggregates are overwritten by the incoming
values (last-write-wins) and the incoming record sequence is appended; spec
§9: "the source appends merge results without any explicit uniqueness
check". -/
def WithdrawStatusData.merge_with_data (old : WithdrawStatusData)
    (incoming : WithdrawStatusPartialData) : WithdrawStatusData :=
  { total_amount := incoming.total_amount,
    recent_withdrawal_amounts := incoming.recent_withdrawal_amounts,
    daily_withdrawal_limit := incoming.daily_withdrawal_limit,
    total_credits_on_platform := incoming.total_credits_on_platform,
    withdrawals := old.withdrawals ++ incoming.withdrawals }

/-- Modelled from the spec: the `TryInto` conversion installing the first
partial result as the snapshot (spec §4.4, Empty→Populated) carries every
field over. -/
def WithdrawStatusPartialData.tryIntoStatusData
    (d : WithdrawStatusPartialData) : WithdrawStatusData :=
  { total_amount := d.total_amount,
    recent_withdrawal_amounts := d.recent_withdrawal_amounts,
    daily_withdrawal_limit := d.daily_withdrawal_limit,
    total_credits_on_platform := d.total_credits_on_platform,
    withdrawals := d.withdrawals }

/-- `WithdrawsStatusScreen::display_task_result` restricted to the
`WithdrawalStatus` result: merge into an existing snapshot, or install the
first one; the held error message is cleared either way.  Returns the new
snapshot state and the new error message. -/
def display_task_result (snapshot : Option WithdrawStatusData)
    (data : WithdrawStatusPartialData) :
    Option WithdrawStatusData × Option String :=
  match snapshot with
  | some old_data => (some (old_data.merge_with_data data), none)
  | none => (some data.tryIntoStatusData, none)

/-- `util_build_combined_filter_status_mix`: rebuild the status filter list
from the five checkbox flags, pushing the statuses in declaration order. -/
def util_build_combined_filter_status_mix
    (queued pooled broadcasted complete expired : Bool) :
    List WithdrawalStatus :=
  (if queued then [WithdrawalStatus.QUEUED] else []) ++
  (if pooled then [WithdrawalStatus.POOLED] else []) ++
  (if broadcasted then [WithdrawalStatus.BROADCASTED] else []) ++
  (if complete then [WithdrawalStatus.COMPLETE] else []) ++
  (if expired then [WithdrawalStatus.EXPIRED] else [])

/-- The checkbox flag governing a given status. -/
def statusFlag (queued pooled broadcasted complete expired : Bool) :
    WithdrawalStatus → Bool
  | .QUEUED => queued
  | .POOLED => pooled
  | .BROADCASTED => broadcasted
  | .COMPLETE => complete
  | .EXPIRED => expired

/-- The `PaginationItemsPerPage` page sizes. -/
inductive PaginationItemsPerPage where
  | Items10 | Items15 | Items20 | Items30 | Items50
deriving DecidableEq, Repr

/-- The `as usize` value of a page size. -/
def PaginationItemsPerPage.toNat : PaginationItemsPerPage → Nat
  | .Items10 => 10
  | .Items15 => 15
  | .Items20 => 20
  | .Items30 => 30
  | .Items50 => 50

/-- `total_pages` as computed in `show_withdraws_data`:
`(len + per - 1) / per` in machine-integer division. -/
def total_pages (n : Nat) (per : PaginationItemsPerPage) : Nat :=
  (n + per.toNat - 1) / per.toNat

/-- The current page actually used for slicing:
`pagination_current_page.min(total_pages.saturating_sub(1))` (saturating
subtraction is truncated subtraction on `Nat`). -/
def current_page_used (storedPage n : Nat) (per : PaginationItemsPerPage) :
    Nat :=
  min storedPage (total_pages n per - 1)

/-- The record slice `&data.withdrawals[start_index..end_index]` with
`start_index = current_page * per` and
`end_index = (start_index + per).min(len)`. -/
def pageSlice (storedPage : Nat) (per : PaginationItemsPerPage)
    (withdrawals : List WithdrawRecord) : List WithdrawRecord :=
  let n := withdrawals.length
  let start_index := current_page_used storedPage n per * per.toNat
  let end_index := min (start_index + per.toNat) n
  (withdrawals.drop start_index).take (end_index - start_index)

/-- The sortable columns. -/
inductive SortColumn where
  | DateTime | Status | Amount | OwnerId | Destination
deriving DecidableEq, Repr

/-- `Ord::cmp` on machine integers. -/
def cmpN (a b : Nat) : Ordering :=
  if a < b then .lt else if a = b then .eq else .gt

/-- Lexicographic `Ord::cmp` on byte/character sequences (identifier bytes
and address text), prefix-first as in Rust's sequence ordering. -/
def cmpL : List Nat → List Nat → Ordering
  | [], [] => .eq
  | [], _ :: _ => .lt
  | _ :: _, [] => .gt
  | a :: as, b :: bs =>
    match cmpN a b with
    | .eq => cmpL as bs
    | o => o

/-- The per-column comparison in `sort_withdraws_data`'s closure. -/
def cmpColumn (column : SortColumn) (a b : WithdrawRecord) : Ordering :=
  match column with
  | .DateTime => cmpN a.date_time b.date_time
  | .Status => cmpN a.status.toU8 b.status.toU8
  | .Amount => cmpN a.amount b.amount
  | .OwnerId => cmpL a.owner_id b.owner_id
  | .Destination => cmpL a.address b.address

/-- The full comparator: the column ordering, reversed when descending. -/
def recordCompare (column : SortColumn) (ascending : Bool)
    (a b : WithdrawRecord) : Ordering :=
  let ord := cmpColumn column a b
  if ascending then ord else ord.swap

/-- Stable insertion relative to a comparator: the new element passes
exactly the elements strictly below it, so it lands before any element it
compares equal to. -/
def insertOrd (cmp : α → α → Ordering) (x : α) : List α → List α
  | [] => [x]
  | y :: ys =>
    match cmp x y with
    | .gt => y :: insertOrd cmp x ys
    | _ => x :: y :: ys

/-- Stable sort by a comparator.  Rust's `sort_by` is a stable sort; for a
total preorder comparator the stable-sorted permutation is unique, so stable
insertion sort is an exact model of it. -/
def sortByOrd (cmp : α → α → Ordering) : List α → List α
  | [] => []
  | x :: xs => insertOrd cmp x (sortByOrd cmp xs)

/-- `sort_withdraws_data`: copy the records and, when a sort column is set,
stably sort them by the column comparator in the requested direction. -/
def sort_withdraws_data (column : Option SortColumn) (ascending : Bool)
    (data : List WithdrawRecord) : List WithdrawRecord :=
  match column with
  | none => data
  | some c => sortByOrd (recordCompare c ascending) data

/-- `handle_column_click` on the (sort column, ascending) state: clicking the
active column toggles the direction, clicking another selects it
ascending. -/
def handle_column_click (state : Option SortColumn × Bool)
    (clicked : SortColumn) : Option SortColumn × Bool :=
  if state.1 = some clicked then (state.1, !state.2)
  else (some clicked, true)

/-- The record sequence the screen renders (`show_output` followed by
`show_withdraws_data`): sort the snapshot's records, then slice the current
page.  No status filtering happens here — the filter mix is only sent with
the backend refresh query. -/
def shown_withdrawals (column : Option SortColumn) (ascending : Bool)
    (storedPage : Nat) (per : PaginationItemsPerPage)
    (data : WithdrawStatusData) : List WithdrawRecord :=
  pageSlice storedPage per (sort_withdraws_data column ascending data.withdrawals)

/-! ## Helper lemmas -/

theorem map_eq_self_of_fixed {α : Type} (f : α → α) :
    ∀ l : List α, (∀ a ∈ l, f a = a) → l.map f = l
  | [], _ => rfl
  | a :: l, h => by
    have ha := h a (List.mem_cons_self a l)
    have hl := map_eq_self_of_fixed f l (fun x hx => h x (List.mem_cons_of_mem a hx))
    simp [ha, hl]

/-- Claim C7 (theorem): on an identifier matching no row, `set_alias` returns
`Err(QueryReturnedNoRows)` (the spec's `NotFound`, not success and not a
storage error) and the table after the call is unchanged — no row added,
removed or modified. -/
theorem set_alias_unknown_identifier_not_found (db : IdentityDb)
    (identifier : List Nat) (new_alias : Option String)
    (h : ∀ r ∈ db, r.id ≠ identifier) :
    set_alias db identifier new_alias =
      (Except.error DbError.QueryReturnedNoRows, db) := by
  have hcount : db.countP (fun r => decide (r.id = identifier)) = 0 := by
    rw [List.countP_eq_zero]
    intro r hr
    simpa using h r hr
  have hmap : db.map (setAliasRow identifier new_alias) = db := by
    apply map_eq_self_of_fixed
    intro r hr
    simp [setAliasRow, h r hr]
  simp [set_alias, hcount, hmap]

/-- Claim C7 (witness): a store holding one row whose identifier is `[2]`,
queried with identifier `[1]`. -/
theorem set_alias_unknown_identifier_not_found_witness :
    set_alias [{ id := [2], data := none, is_local := 0, «alias» := none,
                 identity_type := "", network := "dash", is_in_creation := 0,
                 wallet := none, wallet_index := none }] [1] (some "a") =
      (Except.error DbError.QueryReturnedNoRows,
       [{ id := [2], data := none, is_local := 0, «alias» := none,
          identity_type := "", network := "dash", is_in_creation := 0,
          wallet := none, wallet_index := none }]) :=
  set_alias_unknown_identifier_not_found _ [1] (some "a") (by decide)

/-- Claim C6 (theorem): `update_local_qualified_identity` succeeds in every
case; when no row matches the identity's identifier the store is left
completely unchanged (the absent-row case is indistinguishable from a
successful update), and every row that does match comes out with its fields
overwritten and `is_local = 1`. -/
theorem update_local_silently_noops_when_absent (db : IdentityDb)
    (qi : QualifiedIdentity) (network : String) :
    ((∀ r ∈ db, r.id ≠ qi.core.id) →
      update_local_qualified_identity db qi network = (Except.ok (), db)) ∧
    (∀ r ∈ db, r.id = qi.core.id →
      ({ r with data := some qi.to_bytes, «alias» := qi.«alias»,
                identity_type := qi.core.identity_type, network := network,
                is_local := 1 } : IdentityRow) ∈
        (update_local_qualified_identity db qi network).2) := by
  constructor
  · intro h
    have hmap : db.map (updateLocalRow qi network) = db := by
      apply map_eq_self_of_fixed
      intro r hr
      simp [updateLocalRow, h r hr]
    simp [update_local_qualified_identity, hmap]
  · intro r hr hid
    have : updateLocalRow qi network r =
        { r with data := some qi.to_bytes, «alias» := qi.«alias»,
                 identity_type := qi.core.identity_type, network := network,
                 is_local := 1 } := by
      simp [updateLocalRow, hid]
    rw [update_local_qualified_identity]
    exact this ▸ List.mem_map_of_mem (updateLocalRow qi network) hr

/-- Claim C6 (witness): updating in an empty store succeeds and changes
nothing. -/
theorem update_local_silently_noops_when_absent_witness :
    update_local_qualified_identity []
      ⟨⟨[1], "User", []⟩, none, none, [], []⟩ "dash" = (Except.ok (), []) :=
  (update_local_silently_noops_when_absent []
    ⟨⟨[1], "User", []⟩, none, none, [], []⟩ "dash").1 (by decide)

/-- Claim C8 (theorem): when a row for `(identifier, network)` already
exists, `insert_remote_identity_if_not_exists` returns success and the whole
table — the existing record with all its fields, and every other row — is
unchanged. -/
theorem insert_remote_existing_pair_unchanged (db : IdentityDb)
    (identifier : List Nat) (qi : Option QualifiedIdentity) (network : String)
    (r : IdentityRow) (hr : r ∈ db) (hid : r.id = identifier)
    (hnet : r.network = network) :
    insert_remote_identity_if_not_exists db identifier qi network =
      (Except.ok (), db) := by
  have hpos : 0 < db.countP
      (fun r => decide (r.id = identifier ∧ r.network = network)) := by
    rw [List.countP_pos_iff]
    exact ⟨r, hr, by simp [hid, hnet]⟩
  rw [insert_remote_identity_if_not_exists]
  rw [if_neg (by omega)]

/-- Claim C8 (witness): re-observing an already stored remote identity. -/
theorem insert_remote_existing_pair_unchanged_witness :
    insert_remote_identity_if_not_exists
      [{ id := [7], data := none, is_local := 0, «alias» := some "kept",
         identity_type := "User", network := "dash", is_in_creation := 0,
         wallet := none, wallet_index := none }] [7] none "dash" =
      (Except.ok (),
       [{ id := [7], data := none, is_local := 0, «alias» := some "kept",
          identity_type := "User", network := "dash", is_in_creation := 0,
          wallet := none, wallet_index := none }]) :=
  insert_remote_existing_pair_unchanged _ [7] none "dash"
    { id := [7], data := none, is_local := 0, «alias» := some "kept",
      identity_type := "User", network := "dash", is_in_creation := 0,
      wallet := none, wallet_index := none }
    (List.mem_singleton.mpr rfl) rfl rfl

/-- Claim C10 (theorem): `set_alias` and `update_local_qualified_identity`
match rows by identifier alone — their `WHERE` clause carries no network
condition — so for an identifier present under several network namespaces,
every matching row of every network is rewritten: `set_alias` sets the alias
on all of them, and `update_local_qualified_identity` additionally overwrites
each matched row's `network` column with the caller's current network, so a
matched row whose network differs from the caller's does not stay
unchanged. -/
theorem id_only_matching_rewrites_all_networks (db : IdentityDb)
    (identifier : List Nat) (new_alias : Option String)
    (qi : QualifiedIdentity) (network : String) :
    (∀ r ∈ db, r.id = identifier →
      ({ r with «alias» := new_alias } : IdentityRow) ∈
        (set_alias db identifier new_alias).2) ∧
    (∀ r ∈ db, r.id = qi.core.id →
      ({ r with data := some qi.to_bytes, «alias» := qi.«alias»,
                identity_type := qi.core.identity_type, network := network,
                is_local := 1 } : IdentityRow) ∈
        (update_local_qualified_identity db qi network).2) ∧
    (∀ r : IdentityRow, r.network ≠ network →
      ({ r with data := some qi.to_bytes, «alias» := qi.«alias»,
                identity_type := qi.core.identity_type, network := network,
                is_local := 1 } : IdentityRow) ≠ r) := by
  refine ⟨?_, ?_, ?_⟩
  · intro r hr hid
    have : setAliasRow identifier new_alias r =
        { r with «alias» := new_alias } := by
      simp [setAliasRow, hid]
    exact this ▸ List.mem_map_of_mem (setAliasRow identifier new_alias) hr
  · intro r hr hid
    have : updateLocalRow qi network r =
        { r with data := some qi.to_bytes, «alias» := qi.«alias»,
                 identity_type := qi.core.identity_type, network := network,
                 is_local := 1 } := by
      simp [updateLocalRow, hid]
    rw [update_local_qualified_identity]
    exact this ▸ List.mem_map_of_mem (updateLocalRow qi network) hr
  · intro r hne heq
    apply hne
    have h2 := congrArg IdentityRow.network heq
    simpa using h2.symm

/-- Claim C10 (witness): one identifier stored under both `mainnet` and
`testnet`; `set_alias` called while the caller is on `mainnet` rewrites the
`testnet` row's alias too. -/
theorem id_only_matching_rewrites_all_networks_witness :
    ({ id := [1], data := none, is_local := 0, «alias» := some "x",
       identity_type := "User", network := "testnet", is_in_creation := 0,
       wallet := none, wallet_index := none } : IdentityRow) ∈
      (set_alias
        [{ id := [1], data := none, is_local := 0, «alias» := none,
           identity_type := "User", network := "mainnet", is_in_creation := 0,
           wallet := none, wallet_index := none },
         { id := [1], data := none, is_local := 0, «alias» := none,
           identity_type := "User", network := "testnet", is_in_creation := 0,
           wallet := none, wallet_index := none }] [1] (some "x")).2 :=
  (id_only_matching_rewrites_all_networks _ [1] (some "x")
      ⟨⟨[1], "User", []⟩, none, none, [], []⟩ "mainnet").1
    { id := [1], data := none, is_local := 0, «alias» := none,
      identity_type := "User", network := "testnet", is_in_creation := 0,
      wallet := none, wallet_index := none }
    (by simp) rfl

theorem collectRows_eq_none (f : IdentityRow → Option QualifiedIdentity) :
    ∀ l : IdentityDb, collectRows f l = none ↔ ∃ x ∈ l, f x = none
  | [] => by simp [collectRows]
  | x :: xs => by
    rw [collectRows]
    constructor
    · intro h
      cases hfx : f x with
      | none => exact ⟨x, List.mem_cons_self x xs, hfx⟩
      | some y =>
        cases hm : collectRows f xs with
        | none =>
          obtain ⟨z, hz, hfz⟩ := (collectRows_eq_none f xs).mp hm
          exact ⟨z, List.mem_cons_of_mem x hz, hfz⟩
        | some ys => rw [hfx, hm] at h; simp at h
    · rintro ⟨z, hz, hfz⟩
      rcases List.mem_cons.mp hz with rfl | hz2
      · simp [hfz]
      · cases hfx : f x with
        | none => simp [hfx]
        | some y =>
          have hmn : collectRows f xs = none :=
            (collectRows_eq_none f xs).mpr ⟨z, hz2, hfz⟩
          simp [hfx, hmn]

/-- Claim C3 (amended theorem): the row-level store operations return result
values, and the identity listing runs to completion exactly when every
selected row's payload decodes; it aborts (the `from_bytes` panic, modelled
by `none`) precisely when some local row of the queried network holds a
present-but-malformed payload — on such a store the listing does not return
an error value, contrary to the original claim. -/
theorem listing_aborts_iff_malformed_payload (db : IdentityDb)
    (topUps : List TopUpRow) (wallets : List (List Nat × Nat))
    (network : String) :
    get_local_qualified_identities db topUps wallets network = none ↔
      ∃ r ∈ db, r.is_local = 1 ∧ r.network = network ∧ r.data = some none := by
  rw [get_local_qualified_identities, collectRows_eq_none]
  constructor
  · rintro ⟨r, hrsel, hnone⟩
    rw [selectLocalRows, List.mem_filter] at hrsel
    obtain ⟨hrdb, hcond⟩ := hrsel
    obtain ⟨hl, hn, hd⟩ := of_decide_eq_true hcond
    refine ⟨r, hrdb, hl, hn, ?_⟩
    rcases hdata : r.data with _ | blob
    · exact absurd hdata hd
    · cases blob with
      | none => rfl
      | some core => simp [rowToQualifiedIdentity, hdata, from_bytes] at hnone
  · rintro ⟨r, hrdb, hl, hn, hd⟩
    refine ⟨r, ?_, ?_⟩
    · rw [selectLocalRows, List.mem_filter]
      refine ⟨hrdb, ?_⟩
      rw [decide_eq_true_eq]
      exact ⟨hl, hn, by simp [hd]⟩
    · simp [rowToQualifiedIdentity, hd, from_bytes]

/-- Claim C3 (counterexample): a store holding one local row whose stored
payload is present but malformed.  The listing evaluates to `none`, the
model's marker for the `QualifiedIdentity::from_bytes` panic: it aborts
instead of returning an error value, refuting the claim that decoding
identity rows during listing returns errors rather than aborting. -/
theorem listing_abort_on_malformed_payload_concrete :
    get_local_qualified_identities
      [{ id := [1], data := some none, is_local := 1, «alias» := none,
         identity_type := "User", network := "dash", is_in_creation := 0,
         wallet := none, wallet_index := none }] [] [] "dash" = none := by
  decide

theorem mem_keyMapInsert (k : Nat × Nat) (v : IdentityPublicKey × List Nat) :
    ∀ l, (k, v) ∈ keyMapInsert k v l
  | [] => List.mem_singleton.mpr rfl
  | (k', v') :: rest => by
    rw [keyMapInsert]
    split
    · exact List.mem_cons_self _ _
    · split
      · exact List.mem_cons_self _ _
      · exact List.mem_cons_of_mem _ (mem_keyMapInsert k v rest)

/-- Claim C9 (theorem): externally supplied private key material is persisted
— stored in the screen's `private_key_bytes`, inserted into the identity's
key map, and written through to the store — only when the input hex-decodes
and the private-key validator returns `Ok(true)`.  When the input is not
valid hex, or the validator returns an error or `Ok(false)`, the identity,
the stored key bytes and the record store are all left unchanged and only the
user-facing error message is set. -/
theorem private_key_persisted_only_if_validated
    (validator : PrivateKeyValidator) (network : String)
    (st : KeyInfoScreen) (db : IdentityDb) :
    (hex_decode st.private_key_input = none →
      validate_and_store_private_key validator network st db =
        ({ st with
             error_message := some "Invalid hex string for private key." },
         db)) ∧
    (∀ bytes, hex_decode st.private_key_input = some bytes →
      ∀ msg, validator st.key bytes network = .error msg →
      validate_and_store_private_key validator network st db =
        ({ st with
             error_message := some ("Issue verifying private key " ++ msg) },
         db)) ∧
    (∀ bytes, hex_decode st.private_key_input = some bytes →
      validator st.key bytes network = .ok false →
      validate_and_store_private_key validator network st db =
        ({ st with
             error_message := some "Private key does not match the public key." },
         db)) ∧
    (∀ bytes, hex_decode st.private_key_input = some bytes →
      validator st.key bytes network = .ok true →
      (validate_and_store_private_key validator network st db).1.private_key_bytes
          = some bytes ∧
      ((st.key.purpose, st.key.keyId), (st.key, bytes)) ∈
        (validate_and_store_private_key validator network st db).1.identity.core.encrypted_private_keys ∧
      (validate_and_store_private_key validator network st db).2 =
        (insert_local_qualified_identity db
          (validate_and_store_private_key validator network st db).1.identity
          none network).2) := by
  refine ⟨?_, ?_, ?_, ?_⟩
  · intro hhex
    simp only [validate_and_store_private_key, hhex]
  · intro bytes hhex msg hval
    simp only [validate_and_store_private_key, hhex, hval]
  · intro bytes hhex hval
    simp only [validate_and_store_private_key, hhex, hval]
  · intro bytes hhex hval
    simp only [validate_and_store_private_key, hhex, hval,
      insert_local_qualified_identity]
    exact ⟨trivial, mem_keyMapInsert _ _ _, trivial⟩

/-- Claim C9 (witness): input `"zz"` is not valid hex; with a validator that
would accept anything, the call leaves the screen's identity, key bytes and
the store unchanged and only sets the error message. -/
theorem private_key_persisted_only_if_validated_witness :
    validate_and_store_private_key (fun _ _ _ => Except.ok true) "dash"
      { identity := ⟨⟨[1], "User", []⟩, none, none, [], []⟩,
        key := ⟨0, 0⟩, private_key_bytes := none,
        private_key_input := "zz", error_message := none } [] =
      ({ identity := ⟨⟨[1], "User", []⟩, none, none, [], []⟩,
         key := ⟨0, 0⟩, private_key_bytes := none,
         private_key_input := "zz",
         error_message := some "Invalid hex string for private key." }, []) :=
  (private_key_persisted_only_if_validated (fun _ _ _ => Except.ok true)
      "dash" _ []).1 (by decide)

/-- Claim C1 (amended theorem): installing a first withdrawal-status result A
and merging a second result B yields the snapshot whose record sequence is
exactly A's records followed by B's records — so every record of A and of B
is present, no record present before the merge is absent after it, and every
scalar aggregate equals B's value.  (A record occurring in both A and B
appears twice: the merge appends without de-duplication.) -/
theorem install_then_merge_appends_and_overwrites
    (A B : WithdrawStatusPartialData) :
    (display_task_result (display_task_result none A).1 B).1 =
      some (A.tryIntoStatusData.merge_with_data B) ∧
    (A.tryIntoStatusData.merge_with_data B).withdrawals =
      A.withdrawals ++ B.withdrawals ∧
    A.withdrawals.Sublist (A.tryIntoStatusData.merge_with_data B).withdrawals ∧
    B.withdrawals.Sublist (A.tryIntoStatusData.merge_with_data B).withdrawals ∧
    (A.tryIntoStatusData.merge_with_data B).total_amount = B.total_amount ∧
    (A.tryIntoStatusData.merge_with_data B).recent_withdrawal_amounts =
      B.recent_withdrawal_amounts ∧
    (A.tryIntoStatusData.merge_with_data B).daily_withdrawal_limit =
      B.daily_withdrawal_limit ∧
    (A.tryIntoStatusData.merge_with_data B).total_credits_on_platform =
      B.total_credits_on_platform := by
  refine ⟨rfl, rfl, ?_, ?_, rfl, rfl, rfl, rfl⟩
  · exact List.sublist_append_left _ _
  · exact List.sublist_append_right _ _

/-- Claim C1 (counterexample): install a result holding one record `r`, then
merge a result holding the same record `r`.  Under the de-duplication key
(owner id, date/time, amount) the merged sequence holds the record twice,
refuting "no record appears twice under the de-duplication key". -/
theorem merge_duplicates_shared_record :
    ((WithdrawStatusPartialData.tryIntoStatusData
        ⟨100, 0, 0, 0, [⟨3, .QUEUED, 7, [1], [2]⟩]⟩).merge_with_data
      ⟨150, 0, 0, 0, [⟨3, .QUEUED, 7, [1], [2]⟩]⟩).withdrawals.countP
      (fun x => decide (x.owner_id = [1] ∧ x.date_time = 3 ∧ x.amount = 7))
      = 2 := by
  decide


/-! ## Stable sort lemmas -/

theorem mem_insertOrd {α : Type} (cmp : α → α → Ordering) (x a : α) :
    ∀ l : List α, (a ∈ insertOrd cmp x l ↔ a = x ∨ a ∈ l)
  | [] => by simp [insertOrd]
  | y :: ys => by
    cases h : cmp x y with
    | gt =>
      simp only [insertOrd, h, List.mem_cons, mem_insertOrd cmp x a ys]
      tauto
    | lt =>
      simp only [insertOrd, h, List.mem_cons]
    | eq =>
      simp only [insertOrd, h, List.mem_cons]

theorem length_insertOrd {α : Type} (cmp : α → α → Ordering) (x : α) :
    ∀ l : List α, (insertOrd cmp x l).length = l.length + 1
  | [] => rfl
  | y :: ys => by
    cases h : cmp x y with
    | gt => simp [insertOrd, h, length_insertOrd cmp x ys]
    | lt => simp [insertOrd, h]
    | eq => simp [insertOrd, h]

theorem mem_sortByOrd {α : Type} (cmp : α → α → Ordering) (a : α) :
    ∀ l : List α, (a ∈ sortByOrd cmp l ↔ a ∈ l)
  | [] => Iff.rfl
  | x :: xs => by
    rw [sortByOrd, mem_insertOrd cmp x a (sortByOrd cmp xs),
      mem_sortByOrd cmp a xs, List.mem_cons]

theorem length_sortByOrd {α : Type} (cmp : α → α → Ordering) :
    ∀ l : List α, (sortByOrd cmp l).length = l.length
  | [] => rfl
  | x :: xs => by
    rw [sortByOrd, length_insertOrd cmp x (sortByOrd cmp xs),
      length_sortByOrd cmp xs, List.length_cons]

theorem pairwise_insertOrd {α : Type} (cmp : α → α → Ordering)
    (hswap : ∀ a b, cmp a b = (cmp b a).swap)
    (htrans3 : ∀ a b c, cmp a b ≠ .gt → cmp b c ≠ .gt → cmp a c ≠ .gt)
    (x : α) : ∀ l : List α,
    l.Pairwise (fun a b => cmp a b ≠ .gt) →
    (insertOrd cmp x l).Pairwise (fun a b => cmp a b ≠ .gt)
  | [], _ => by simp [insertOrd]
  | y :: ys, h => by
    obtain ⟨hy, hys⟩ := List.pairwise_cons.mp h
    cases hxy : cmp x y with
    | gt =>
      simp only [insertOrd, hxy]
      refine List.pairwise_cons.mpr
        ⟨?_, pairwise_insertOrd cmp hswap htrans3 x ys hys⟩
      intro z hz
      rcases (mem_insertOrd cmp x z ys).mp hz with rfl | hz2
      · rw [hswap y z, hxy]
        decide
      · exact hy z hz2
    | lt =>
      simp only [insertOrd, hxy]
      refine List.pairwise_cons.mpr ⟨?_, h⟩
      intro z hz
      rcases List.mem_cons.mp hz with rfl | hz2
      · rw [hxy]; decide
      · exact htrans3 x y z (by rw [hxy]; decide) (hy z hz2)
    | eq =>
      simp only [insertOrd, hxy]
      refine List.pairwise_cons.mpr ⟨?_, h⟩
      intro z hz
      rcases List.mem_cons.mp hz with rfl | hz2
      · rw [hxy]; decide
      · exact htrans3 x y z (by rw [hxy]; decide) (hy z hz2)

theorem pairwise_sortByOrd {α : Type} (cmp : α → α → Ordering)
    (hswap : ∀ a b, cmp a b = (cmp b a).swap)
    (htrans3 : ∀ a b c, cmp a b ≠ .gt → cmp b c ≠ .gt → cmp a c ≠ .gt) :
    ∀ l : List α, (sortByOrd cmp l).Pairwise (fun a b => cmp a b ≠ .gt)
  | [] => List.Pairwise.nil
  | x :: xs => by
    rw [sortByOrd]
    exact pairwise_insertOrd cmp hswap htrans3 x (sortByOrd cmp xs)
      (pairwise_sortByOrd cmp hswap htrans3 xs)

theorem insertOrd_all_gt {α : Type} (cmp : α → α → Ordering) (x : α) :
    ∀ t : List α, (∀ z ∈ t, cmp x z = .gt) → insertOrd cmp x t = t ++ [x]
  | [], _ => rfl
  | y :: ys, h => by
    have hy := h y (List.mem_cons_self y ys)
    simp only [insertOrd, hy]
    rw [insertOrd_all_gt cmp x ys (fun z hz => h z (List.mem_cons_of_mem y hz))]
    simp

theorem insertOrd_append_single {α : Type} (cmp : α → α → Ordering)
    (x y : α) (hxy : cmp x y ≠ Ordering.gt) :
    ∀ t : List α, insertOrd cmp x (t ++ [y]) = insertOrd cmp x t ++ [y]
  | [] => by
    cases h : cmp x y with
    | gt => exact absurd h hxy
    | lt => simp [insertOrd, h]
    | eq => simp [insertOrd, h]
  | a :: t => by
    have ih := insertOrd_append_single cmp x y hxy t
    cases h : cmp x a with
    | gt =>
      show insertOrd cmp x (a :: (t ++ [y])) = insertOrd cmp x (a :: t) ++ [y]
      simp only [insertOrd, h, List.cons_append, ih]
    | lt =>
      show insertOrd cmp x (a :: (t ++ [y])) = insertOrd cmp x (a :: t) ++ [y]
      simp [insertOrd, h]
    | eq =>
      show insertOrd cmp x (a :: (t ++ [y])) = insertOrd cmp x (a :: t) ++ [y]
      simp [insertOrd, h]

theorem insertOrd_swap_reverse {α : Type} (cmp : α → α → Ordering)
    (htrans1 : ∀ a b c, cmp a b = .lt → cmp b c ≠ .gt → cmp a c = .lt)
    (x : α) : ∀ s : List α,
    s.Pairwise (fun a b => cmp a b ≠ .gt) →
    (∀ y ∈ s, cmp x y ≠ .eq) →
    insertOrd (fun a b => (cmp a b).swap) x s.reverse =
      (insertOrd cmp x s).reverse
  | [], _, _ => rfl
  | y :: ys, hs, hne => by
    obtain ⟨hy, hys⟩ := List.pairwise_cons.mp hs
    have hxy := hne y (List.mem_cons_self y ys)
    cases hcase : cmp x y with
    | eq => exact absurd hcase hxy
    | lt =>
      have hlhs : insertOrd (fun a b => (cmp a b).swap) x ((y :: ys).reverse) =
          (y :: ys).reverse ++ [x] := by
        apply insertOrd_all_gt
        intro z hz
        rw [List.reverse_cons, List.mem_append] at hz
        rcases hz with hz2 | hz2
        · have hz3 := List.mem_reverse.mp hz2
          have hlt : cmp x z = .lt := htrans1 x y z hcase (hy z hz3)
          rw [hlt]
          decide
        · have hzy : z = y := by simpa using hz2
          subst hzy
          rw [hcase]
          decide
      rw [hlhs]
      simp only [insertOrd, hcase]
      simp [List.reverse_cons]
    | gt =>
      have hdxy : (fun a b => (cmp a b).swap) x y ≠ Ordering.gt := by
        simp only [hcase]
        decide
      rw [List.reverse_cons,
        insertOrd_append_single (fun a b => (cmp a b).swap) x y hdxy ys.reverse,
        insertOrd_swap_reverse cmp htrans1 x ys hys
          (fun z hz => hne z (List.mem_cons_of_mem y hz))]
      simp only [insertOrd, hcase]
      rw [List.reverse_cons]

theorem sortByOrd_swap_reverse {α : Type} (cmp : α → α → Ordering)
    (hswap : ∀ a b, cmp a b = (cmp b a).swap)
    (htrans1 : ∀ a b c, cmp a b = .lt → cmp b c ≠ .gt → cmp a c = .lt)
    (htrans3 : ∀ a b c, cmp a b ≠ .gt → cmp b c ≠ .gt → cmp a c ≠ .gt) :
    ∀ l : List α, l.Pairwise (fun a b => cmp a b ≠ .eq) →
    sortByOrd (fun a b => (cmp a b).swap) l = (sortByOrd cmp l).reverse
  | [], _ => rfl
  | x :: xs, hl => by
    obtain ⟨hx, hxs⟩ := List.pairwise_cons.mp hl
    rw [sortByOrd, sortByOrd,
      sortByOrd_swap_reverse cmp hswap htrans1 htrans3 xs hxs]
    exact insertOrd_swap_reverse cmp htrans1 x (sortByOrd cmp xs)
      (pairwise_sortByOrd cmp hswap htrans3 xs)
      (fun y hy => hx y ((mem_sortByOrd cmp y xs).mp hy))

/-! ## Comparator laws -/

theorem cmpN_eq_lt (a b : Nat) : cmpN a b = .lt ↔ a < b := by
  unfold cmpN
  split_ifs with h1 h2 <;> simp_all

theorem cmpN_eq_eq (a b : Nat) : cmpN a b = .eq ↔ a = b := by
  unfold cmpN
  split_ifs with h1 h2 <;> simp_all
  omega

theorem cmpN_eq_gt (a b : Nat) : cmpN a b = .gt ↔ b < a := by
  unfold cmpN
  split_ifs with h1 h2 <;> simp_all <;> omega

theorem cmpN_swap (a b : Nat) : cmpN a b = (cmpN b a).swap := by
  rcases Nat.lt_trichotomy a b with h | h | h
  · rw [(cmpN_eq_lt a b).mpr h, (cmpN_eq_gt b a).mpr h]
    rfl
  · subst h
    rw [(cmpN_eq_eq a a).mpr rfl]
    rfl
  · rw [(cmpN_eq_gt a b).mpr h, (cmpN_eq_lt b a).mpr h]
    rfl

theorem cmpN_trans1 (a b c : Nat) :
    cmpN a b = .lt → cmpN b c ≠ .gt → cmpN a c = .lt := by
  intro h1 h2
  rw [cmpN_eq_lt] at h1 ⊢
  rw [Ne, cmpN_eq_gt] at h2
  omega

theorem cmpN_trans3 (a b c : Nat) :
    cmpN a b ≠ .gt → cmpN b c ≠ .gt → cmpN a c ≠ .gt := by
  intro h1 h2
  rw [Ne, cmpN_eq_gt] at h1 h2 ⊢
  omega

theorem cmpL_swap : ∀ a b : List Nat, cmpL a b = (cmpL b a).swap
  | [], [] => rfl
  | [], _ :: _ => rfl
  | _ :: _, [] => rfl
  | x :: xs, y :: ys => by
    simp only [cmpL]
    rw [cmpN_swap x y]
    cases h : cmpN y x with
    | lt => rfl
    | gt => rfl
    | eq => exact cmpL_swap xs ys

theorem cmpL_trans1 : ∀ a b c : List Nat,
    cmpL a b = .lt → cmpL b c ≠ .gt → cmpL a c = .lt
  | [], [], _, h1, _ => by simp [cmpL] at h1
  | [], _ :: _, [], _, h2 => by simp [cmpL] at h2
  | [], _ :: _, _ :: _, _, _ => rfl
  | _ :: _, [], _, h1, _ => by simp [cmpL] at h1
  | _ :: _, _ :: _, [], _, h2 => by simp [cmpL] at h2
  | x :: xs, y :: ys, z :: zs, h1, h2 => by
    simp only [cmpL] at h1 h2 ⊢
    cases hxy : cmpN x y with
    | gt =>
      rw [hxy] at h1
      exact Ordering.noConfusion h1
    | lt =>
      cases hyz : cmpN y z with
      | gt =>
        rw [hyz] at h2
        exact absurd rfl h2
      | lt =>
        have hxz : cmpN x z = .lt :=
          cmpN_trans1 x y z hxy (by rw [hyz]; decide)
        rw [hxz]
      | eq =>
        have hyz2 : y = z := (cmpN_eq_eq y z).mp hyz
        subst hyz2
        rw [hxy]
    | eq =>
      have hxy2 : x = y := (cmpN_eq_eq x y).mp hxy
      subst hxy2
      simp only [hxy] at h1
      cases hyz : cmpN x z with
      | gt =>
        simp only [hyz] at h2
        exact absurd rfl h2
      | lt => rfl
      | eq =>
        simp only [hyz] at h2
        exact cmpL_trans1 xs ys zs h1 h2

theorem cmpL_trans3 : ∀ a b c : List Nat,
    cmpL a b ≠ .gt → cmpL b c ≠ .gt → cmpL a c ≠ .gt
  | [], _, [], _, _ => by simp [cmpL]
  | [], _, _ :: _, _, _ => by simp [cmpL]
  | _ :: _, [], _, h1, _ => by simp [cmpL] at h1
  | _ :: _, _ :: _, [], _, h2 => by simp [cmpL] at h2
  | x :: xs, y :: ys, z :: zs, h1, h2 => by
    simp only [cmpL] at h1 h2 ⊢
    cases hxy : cmpN x y with
    | gt =>
      simp only [hxy] at h1
      exact absurd rfl h1
    | lt =>
      cases hyz : cmpN y z with
      | gt =>
        simp only [hyz] at h2
        exact absurd rfl h2
      | lt =>
        have hxz : cmpN x z = .lt :=
          cmpN_trans1 x y z hxy (by rw [hyz]; decide)
        rw [hxz]
        simp
      | eq =>
        have hyz2 : y = z := (cmpN_eq_eq y z).mp hyz
        subst hyz2
        rw [hxy]
        simp
    | eq =>
      have hxy2 : x = y := (cmpN_eq_eq x y).mp hxy
      subst hxy2
      simp only [hxy] at h1
      cases hyz : cmpN x z with
      | gt =>
        simp only [hyz] at h2
        exact absurd rfl h2
      | lt => simp
      | eq =>
        simp only [hyz] at h2
        exact cmpL_trans3 xs ys zs h1 h2

theorem cmpColumn_swap (col : SortColumn) (a b : WithdrawRecord) :
    cmpColumn col a b = (cmpColumn col b a).swap := by
  cases col <;> simp only [cmpColumn] <;>
    first
      | exact cmpN_swap _ _
      | exact cmpL_swap _ _

theorem cmpColumn_trans1 (col : SortColumn) (a b c : WithdrawRecord) :
    cmpColumn col a b = .lt → cmpColumn col b c ≠ .gt →
    cmpColumn col a c = .lt := by
  cases col <;> simp only [cmpColumn] <;>
    first
      | exact cmpN_trans1 _ _ _
      | exact cmpL_trans1 _ _ _

theorem cmpColumn_trans3 (col : SortColumn) (a b c : WithdrawRecord) :
    cmpColumn col a b ≠ .gt → cmpColumn col b c ≠ .gt →
    cmpColumn col a c ≠ .gt := by
  cases col <;> simp only [cmpColumn] <;>
    first
      | exact cmpN_trans3 _ _ _
      | exact cmpL_trans3 _ _ _

/-- Claim C4 (amended theorem): for every sort column, sorting with
`ascending = false` produces exactly the reverse of sorting with
`ascending = true`, provided no two records of the list compare equal on the
sort column.  (With ties this fails: the sort is stable, so tied records
keep their original relative order in both directions instead of being
reversed.) -/
theorem sort_descending_reverses_ascending_without_ties (col : SortColumn)
    (l : List WithdrawRecord)
    (h : l.Pairwise (fun a b => cmpColumn col a b ≠ .eq)) :
    sort_withdraws_data (some col) false l =
      (sort_withdraws_data (some col) true l).reverse := by
  have easc : recordCompare col true = cmpColumn col := by
    funext a b
    simp [recordCompare]
  have edesc : recordCompare col false =
      fun a b => (cmpColumn col a b).swap := by
    funext a b
    simp [recordCompare]
  simp only [sort_withdraws_data, easc, edesc]
  exact sortByOrd_swap_reverse (cmpColumn col) (cmpColumn_swap col)
    (cmpColumn_trans1 col) (cmpColumn_trans3 col) l h

/-- Claim C4 (witness): two records with distinct timestamps; sorting by
date/time descending is the reverse of sorting ascending. -/
theorem sort_descending_reverses_ascending_without_ties_witness :
    sort_withdraws_data (some .DateTime) false
      [⟨1, .QUEUED, 5, [1], [1]⟩, ⟨2, .COMPLETE, 6, [2], [2]⟩] =
      (sort_withdraws_data (some .DateTime) true
        [⟨1, .QUEUED, 5, [1], [1]⟩, ⟨2, .COMPLETE, 6, [2], [2]⟩]).reverse :=
  sort_descending_reverses_ascending_without_ties .DateTime
    [⟨1, .QUEUED, 5, [1], [1]⟩, ⟨2, .COMPLETE, 6, [2], [2]⟩] (by decide)

/-- Claim C4 (counterexample): two records tied on date/time.  The stable
sort keeps them in input order under both directions, so the descending
order is not the reverse of the ascending order. -/
theorem sort_descending_not_reverse_with_ties :
    sort_withdraws_data (some .DateTime) false
      [⟨5, .QUEUED, 1, [1], [1]⟩, ⟨5, .QUEUED, 2, [2], [2]⟩] ≠
      (sort_withdraws_data (some .DateTime) true
        [⟨5, .QUEUED, 1, [1], [1]⟩, ⟨5, .QUEUED, 2, [2], [2]⟩]).reverse := by
  decide

theorem mem_sort_withdraws_data (column : Option SortColumn)
    (ascending : Bool) (a : WithdrawRecord) (l : List WithdrawRecord) :
    a ∈ sort_withdraws_data column ascending l ↔ a ∈ l := by
  cases column with
  | none => exact Iff.rfl
  | some c => exact mem_sortByOrd (recordCompare c ascending) a l

theorem length_sort_withdraws_data (column : Option SortColumn)
    (ascending : Bool) (l : List WithdrawRecord) :
    (sort_withdraws_data column ascending l).length = l.length := by
  cases column with
  | none => rfl
  | some c => exact length_sortByOrd (recordCompare c ascending) l

theorem pageSlice_all (per : PaginationItemsPerPage)
    (l : List WithdrawRecord) (h : l.length ≤ per.toNat) :
    pageSlice 0 per l = l := by
  rw [pageSlice]
  simp only [current_page_used, Nat.zero_min, Nat.zero_mul, Nat.zero_add,
    List.drop_zero, Nat.sub_zero, Nat.min_eq_right h, List.take_length]

/-- Claim C2 (amended theorem): the filter mix rebuilt from the checkboxes
contains a status exactly when its checkbox flag is set — in particular an
all-unchecked state yields the empty mix — but the mix is only sent with the
backend refresh query: the record sequence the screen renders is drawn from
the snapshot with no status filtering.  Every rendered record is a snapshot
record, and whenever the snapshot fits one page the screen renders all of
the snapshot's records (in sorted order) whatever their statuses and
whatever the filter flags. -/
theorem filter_mix_exact_but_view_unfiltered
    (queued pooled broadcasted complete expired : Bool)
    (column : Option SortColumn) (ascending : Bool)
    (storedPage : Nat) (per : PaginationItemsPerPage)
    (data : WithdrawStatusData) :
    (∀ s, s ∈ util_build_combined_filter_status_mix
        queued pooled broadcasted complete expired ↔
      statusFlag queued pooled broadcasted complete expired s = true) ∧
    (∀ r ∈ shown_withdrawals column ascending storedPage per data,
      r ∈ data.withdrawals) ∧
    (data.withdrawals.length ≤ per.toNat →
      shown_withdrawals column ascending 0 per data =
        sort_withdraws_data column ascending data.withdrawals) := by
  refine ⟨?_, ?_, ?_⟩
  · intro s
    cases s <;> cases queued <;> cases pooled <;> cases broadcasted <;>
      cases complete <;> cases expired <;> decide
  · intro r hr
    rw [shown_withdrawals, pageSlice] at hr
    exact (mem_sort_withdraws_data column ascending r data.withdrawals).mp
      (((List.take_sublist _ _).trans (List.drop_sublist _ _)).mem hr)
  · intro hlen
    rw [shown_withdrawals]
    refine pageSlice_all per _ ?_
    rw [length_sort_withdraws_data]
    exact hlen

/-- Claim C2 (witness): a one-record snapshot fits a page of ten, so the
screen renders exactly that record. -/
theorem filter_mix_exact_but_view_unfiltered_witness :
    shown_withdrawals none true 0 .Items10 ⟨0, 0, 0, 0,
      [⟨1, .QUEUED, 2, [1], [1]⟩]⟩ = [⟨1, .QUEUED, 2, [1], [1]⟩] :=
  (filter_mix_exact_but_view_unfiltered false false false false false
    none true 0 .Items10 ⟨0, 0, 0, 0, [⟨1, .QUEUED, 2, [1], [1]⟩]⟩).2.2
    (by decide)

/-- Claim C2 (counterexample): all five checkboxes cleared give the empty
filter set, yet the screen still renders the snapshot's queued record — the
view does not yield the empty sequence for the empty filter set, because the
status filter is never applied locally. -/
theorem empty_filter_set_still_shows_records :
    util_build_combined_filter_status_mix false false false false false =
      [] ∧
    shown_withdrawals (some .DateTime) false 0 .Items10
      ⟨0, 0, 0, 0, [⟨1, .QUEUED, 2, [1], [1]⟩]⟩ =
      [⟨1, .QUEUED, 2, [1], [1]⟩] := by
  constructor
  · rfl
  · decide

theorem ceil_div_bounds (n p : Nat) (hp : 0 < p) :
    n ≤ (n + p - 1) / p * p ∧
    (0 < (n + p - 1) / p → ((n + p - 1) / p - 1) * p < n) := by
  cases n with
  | zero =>
    have h0 : (0 + p - 1) / p = 0 := Nat.div_eq_of_lt (by omega)
    rw [h0]
    simp
  | succ k =>
    have h1 : k + 1 + p - 1 = k + p := by omega
    rw [h1, Nat.add_div_right k hp]
    constructor
    · have h2 := Nat.div_add_mod k p
      have h3 := Nat.mod_lt k hp
      have h4 : (k / p + 1) * p = p * (k / p) + p := by ring
      rw [h4]
      omega
    · intro _
      rw [Nat.add_sub_cancel]
      exact Nat.lt_succ_of_le (Nat.div_mul_le_self k p)

/-- Claim C5 (amended theorem): for a record count `n` and any page size `p`
(all available sizes are positive), the computed page count is exactly
`ceil(n/p)` — it is the least number of pages covering all records, and is 0
when `n = 0` — and whenever the page count is positive the current page
actually used for slicing is clamped into `[0, page_count-1]`, for every
stored page and every page size (so a page-size change re-clamps rather than
erroring).  When the snapshot is empty the slice is empty.  (When `n = 0`
the page count is 0 while the used page is 0, which lies outside the then
empty integer interval `[0, page_count-1]`.) -/
theorem pagination_page_count_and_clamp (n storedPage : Nat)
    (per : PaginationItemsPerPage) :
    (n ≤ total_pages n per * per.toNat) ∧
    (0 < total_pages n per → (total_pages n per - 1) * per.toNat < n) ∧
    (n = 0 → total_pages n per = 0) ∧
    (0 < total_pages n per →
      current_page_used storedPage n per ≤ total_pages n per - 1) ∧
    pageSlice storedPage per [] = [] := by
  have hp : 0 < per.toNat := by cases per <;> decide
  obtain ⟨hub, hlb⟩ := ceil_div_bounds n per.toNat hp
  refine ⟨hub, hlb, ?_, ?_, ?_⟩
  · intro h0
    subst h0
    exact Nat.div_eq_of_lt (by omega)
  · intro _
    exact Nat.min_le_right _ _
  · simp [pageSlice]

/-- Claim C5 (witness): 25 records at 10 per page give 3 pages, and a stored
page of 7 is clamped to page 2, the last valid page. -/
theorem pagination_page_count_and_clamp_witness :
    current_page_used 7 25 .Items10 ≤ total_pages 25 .Items10 - 1 :=
  (pagination_page_count_and_clamp 25 7 .Items10).2.2.2.1 (by decide)

/-- Claim C5 (counterexample): with no records the page count is 0, yet the
page used for slicing is 0, which does not lie in the integer interval
`[0, page_count - 1] = [0, -1]` — the "current page always within
`[0, page_count-1]`" clause fails at `n = 0`. -/
theorem pagination_empty_page_outside_interval :
    total_pages 0 .Items10 = 0 ∧
    current_page_used 5 0 .Items10 = 0 ∧
    ¬((current_page_used 5 0 .Items10 : Int) ≤
        (total_pages 0 .Items10 : Int) - 1) := by
  decide
